import Mathlib

set_option maxRecDepth 16000

/-!
Verification development for the streaming turn-processing pipeline of the
`weagi_inference_service` backend (Rust).  The definitions below are a shallow
embedding of the relevant source functions:

* `src/service/chat.rs` — `handle_user_message` (credit gate, edit-target
  validation, provider stream adapter, sentence segmenter, speech relay,
  streaming persistence task);
* `src/repositories/conversation.rs` — `add_message` (truncation on edit,
  title derivation, append of the user/assistant pair);
* `src/config/constant.rs` — `MODEL_TO_PRICE`;
* `src/utils/session.rs` — the billing notifier call site.

Rust strings are modelled as Lean `String` / `List Char`; byte lengths use the
UTF-8 size of each character.  Whitespace is modelled as the ASCII whitespace
characters (the inputs exercised by the spec are ASCII).
-/

/-! ## Basic character/string helpers (ASCII model of Rust behaviour) -/

/-- ASCII model of Rust `char::is_whitespace` and of the regex class `\s`:
space, tab, line feed, carriage return, vertical tab, form feed. -/
def isWs (c : Char) : Bool :=
  c = ' ' || c = '\t' || c = '\n' || c = '\r' || c = '\x0b' || c = '\x0c'

/-- Rust `s.split("\n")`: pieces between newline characters, keeping empty
pieces (as `str::split` does). -/
def splitNl : List Char → List (List Char)
  | [] => [[]]
  | c :: rest =>
    match splitNl rest with
    | piece :: pieces =>
      if c = '\n' then [] :: piece :: pieces else (c :: piece) :: pieces
    | [] => [[c]]

/-- Rust `s.strip_prefix("data: ")` specialised to the provider frame tag
(`chat.rs` line 347). -/
def stripDataTag : List Char → Option (List Char)
  | 'd' :: 'a' :: 't' :: 'a' :: ':' :: ' ' :: rest => some rest
  | _ => none

/-- UTF-8 byte length of a string, modelling Rust `str::len()`. -/
def utf8Len (s : String) : Nat :=
  s.data.foldl (fun n c => n + c.utf8Size) 0

/-- Concatenation of a list of character lists. -/
def joinL : List (List Char) → List Char
  | [] => []
  | l :: ls => l ++ joinL ls

/-! ## A small JSON model (the subset produced by the completion provider)

`serde_json::from_str` is modelled by `parseJson`: a recursive-descent parser
over the characters, with fuel for termination.  It covers objects, arrays,
strings (with the common escapes), integers, booleans and null — the shapes
appearing in provider frames and stored conversation entries.  An input that
is not a complete JSON document (in particular, a frame body cut off mid-way
by a transport chunk boundary) fails to parse, exactly as `serde_json` does. -/

inductive Json where
  | null : Json
  | bool (b : Bool) : Json
  | num (n : Int) : Json
  | str (s : List Char) : Json
  | arr (xs : List Json) : Json
  | obj (fields : List (List Char × Json)) : Json

def skipWs : List Char → List Char
  | [] => []
  | c :: rest => if isWs c then skipWs rest else c :: rest

def isDigit (c : Char) : Bool := '0' ≤ c && c ≤ '9'

/-- Parse a run of decimal digits, returning the value and the rest. -/
def parseDigits : List Char → Nat → Option (Nat × List Char)
  | [], _ => none
  | c :: rest, acc =>
    if isDigit c then
      let acc' := acc * 10 + (c.toNat - '0'.toNat)
      match parseDigits rest acc' with
      | some r => some r
      | none => some (acc', rest)
    else none

/-- Parse the body of a JSON string after the opening quote, handling the
common escapes. -/
def parseStrBody : List Char → Option (List Char × List Char)
  | [] => none
  | '"' :: rest => some ([], rest)
  | '\\' :: e :: rest =>
    let dec : Option Char :=
      if e = '"' then some '"'
      else if e = '\\' then some '\\'
      else if e = '/' then some '/'
      else if e = 'n' then some '\n'
      else if e = 't' then some '\t'
      else if e = 'r' then some '\r'
      else none
    match dec with
    | none => none
    | some c =>
      match parseStrBody rest with
      | some (s, rem) => some (c :: s, rem)
      | none => none
  | c :: rest =>
    match parseStrBody rest with
    | some (s, rem) => some (c :: s, rem)
    | none => none

mutual

def parseVal : Nat → List Char → Option (Json × List Char)
  | 0, _ => none
  | fuel + 1, cs =>
    match skipWs cs with
    | [] => none
    | '{' :: rest => parseObjFields fuel (skipWs rest) true
    | '[' :: rest => parseArrItems fuel (skipWs rest) true
    | '"' :: rest =>
      match parseStrBody rest with
      | some (s, rem) => some (Json.str s, rem)
      | none => none
    | 't' :: 'r' :: 'u' :: 'e' :: rest => some (Json.bool true, rest)
    | 'f' :: 'a' :: 'l' :: 's' :: 'e' :: rest => some (Json.bool false, rest)
    | 'n' :: 'u' :: 'l' :: 'l' :: rest => some (Json.null, rest)
    | '-' :: rest =>
      match parseDigits rest 0 with
      | some (n, rem) => some (Json.num (-(n : Int)), rem)
      | none => none
    | c :: rest =>
      if isDigit c then
        match parseDigits (c :: rest) 0 with
        | some (n, rem) => some (Json.num (n : Int), rem)
        | none => none
      else none

def parseArrItems : Nat → List Char → Bool → Option (Json × List Char)
  | 0, _, _ => none
  | _ + 1, ']' :: rest, true => some (Json.arr [], rest)
  | fuel + 1, cs, _ =>
    match parseVal fuel cs with
    | none => none
    | some (v, rem) =>
      match skipWs rem with
      | ',' :: rest =>
        match parseArrItems fuel (skipWs rest) false with
        | some (Json.arr vs, rem') => some (Json.arr (v :: vs), rem')
        | _ => none
      | ']' :: rest => some (Json.arr [v], rest)
      | _ => none

def parseObjFields : Nat → List Char → Bool → Option (Json × List Char)
  | 0, _, _ => none
  | _ + 1, '}' :: rest, true => some (Json.obj [], rest)
  | fuel + 1, cs, _ =>
    match cs with
    | '"' :: rest =>
      match parseStrBody rest with
      | none => none
      | some (k, rem) =>
        match skipWs rem with
        | ':' :: rest' =>
          match parseVal fuel rest' with
          | none => none
          | some (v, rem') =>
            match skipWs rem' with
            | ',' :: rest'' =>
              match parseObjFields fuel (skipWs rest'') false with
              | some (Json.obj fs, rem'') => some (Json.obj ((k, v) :: fs), rem'')
              | _ => none
            | '}' :: rest'' => some (Json.obj [(k, v)], rest'')
            | _ => none
        | _ => none
    | _ => none

end

/-- Model of `serde_json::from_str`: the whole input must be one JSON value,
possibly surrounded by whitespace. -/
def parseJson (cs : List Char) : Option Json :=
  match parseVal (2 * cs.length + 4) cs with
  | some (v, rem) => if skipWs rem = [] then some v else none
  | none => none

/-- Look up a field of a JSON object (serde reads the declared fields of the
struct; unknown fields are ignored). -/
def jsonField (j : Json) (key : List Char) : Option Json :=
  match j with
  | Json.obj fields => (fields.find? (fun f => f.1 = key)).map Prod.snd
  | _ => none

/-! ## Provider stream adapter (`chat.rs` lines 41–58 and 335–443)

The wire structs `ChatChunkDelta`, `ChatChunkChoice`, `ChatCompletionChunk`
are deserialized by serde with their non-`Option` fields required. -/

structure ChatChunkDelta where
  content : Option (List Char)

structure ChatChunkChoice where
  delta : ChatChunkDelta
  index : Nat
  finish_reason : Option (List Char)

structure ChatCompletionChunk where
  id : List Char
  object : List Char
  created : Nat
  model : List Char
  choices : List ChatChunkChoice

/-- serde deserialization of an `Option<String>` field: absent or `null` give
`none`; a string gives `some`; any other shape fails. -/
def decodeOptStr (j : Json) (key : List Char) : Option (Option (List Char)) :=
  match jsonField j key with
  | none => some none
  | some Json.null => some none
  | some (Json.str s) => some (some s)
  | some _ => none

def decodeStrField (j : Json) (key : List Char) : Option (List Char) :=
  match jsonField j key with
  | some (Json.str s) => some s
  | _ => none

def decodeNatField (j : Json) (key : List Char) : Option Nat :=
  match jsonField j key with
  | some (Json.num n) => if 0 ≤ n then some n.toNat else none
  | _ => none

def decodeDelta (j : Json) : Option ChatChunkDelta :=
  match decodeOptStr j "content".data with
  | some c => some ⟨c⟩
  | none => none

def decodeChoice (j : Json) : Option ChatChunkChoice :=
  match jsonField j "delta".data with
  | none => none
  | some dj =>
    match decodeDelta dj with
    | none => none
    | some d =>
      match decodeNatField j "index".data with
      | none => none
      | some i =>
        match decodeOptStr j "finish_reason".data with
        | none => none
        | some fr => some ⟨d, i, fr⟩

/-- serde deserialization of `ChatCompletionChunk`: `id`, `object`, `created`,
`model` and `choices` are all required. -/
def decodeChunk (j : Json) : Option ChatCompletionChunk :=
  match decodeStrField j "id".data with
  | none => none
  | some i =>
    match decodeStrField j "object".data with
    | none => none
    | some o =>
      match decodeNatField j "created".data with
      | none => none
      | some cr =>
        match decodeStrField j "model".data with
        | none => none
        | some m =>
          match jsonField j "choices".data with
          | some (Json.arr js) =>
            match js.mapM decodeChoice with
            | none => none
            | some cs => some ⟨i, o, cr, m, cs⟩
          | _ => none

/-- `serde_json::from_str::<ChatCompletionChunk>` on one candidate frame body. -/
def parseChunk (cs : List Char) : Option ChatCompletionChunk :=
  match parseJson cs with
  | none => none
  | some j => decodeChunk j

/-- One transport chunk of the provider stream (`chat.rs` lines 345–434):
split the chunk on newlines, keep the lines carrying the `data: ` tag, stop at
the `[DONE]` sentinel, try to parse `cached_str ++ body`, and on a parse
failure push the body onto `cached_str`.  `cached_str` is the local reassembly
buffer declared at line 345 — inside the per-chunk loop. -/
def processPieces (pieces : List (List Char)) (cached : List Char)
    (deltas : List (List Char)) : List (List Char) :=
  match pieces with
  | [] => deltas
  | p :: rest =>
    match stripDataTag p with
    | none => processPieces rest cached deltas
    | some body =>
      if body = "[DONE]".data then deltas
      else
        match parseChunk (cached ++ body) with
        | none => processPieces rest (cached ++ body) deltas
        | some d =>
          match d.choices.head? with
          | none => processPieces rest cached deltas
          | some c =>
            match c.delta.content with
            | none => processPieces rest [] deltas
            | some content => processPieces rest [] (deltas ++ [content])

/-- The deltas produced by the stream adapter over a sequence of transport
chunks.  Each chunk is processed with a fresh `cached_str` (it is declared
inside the `while let` body, `chat.rs` line 345). -/
def adapterDeltas (chunks : List String) : List String :=
  (chunks.foldl (fun acc chunk => processPieces (splitNl chunk.data) [] acc) []).map
    (fun cs => String.mk cs)

/-! ## Sentence segmenter (`chat.rs` lines 326–330 and 374–379)

The regex `(?m)(?:[.!?]\s+|\n|\r\n)` is searched with leftmost-first
semantics and a greedy `\s+`; each match end is a sentence boundary, and the
`while let Some(pos) = sentence_regex.find(&buffer)` loop drains the buffer
up to `pos.end()` for every boundary, left to right. -/

/-- Length of the leading whitespace run (the greedy `\s+`). -/
def wsRun : List Char → Nat
  | [] => 0
  | c :: rest => if isWs c then wsRun rest + 1 else 0

/-- End position of the leftmost match of `(?:[.!?]\s+|\n|\r\n)`, if any.
At each position the alternatives are tried in order, as the regex engine
does; `\s+` is greedy. -/
def findBoundaryEnd : List Char → Option Nat
  | [] => none
  | c :: rest =>
    if (c = '.' || c = '!' || c = '?') && (match rest with
        | r :: _ => isWs r
        | [] => false) then
      some (1 + wsRun rest)
    else if c = '\n' then some 1
    else if c = '\r' && (match rest with | '\n' :: _ => true | _ => false) then
      some 2
    else (findBoundaryEnd rest).map (· + 1)

/-- The `while let` drain loop: emit the prefix up to each boundary found,
left to right, keeping the unterminated tail.  Structured with fuel; every
boundary end is at least 1, so `length + 1` fuel always suffices. -/
def drainSentences : Nat → List Char → List (List Char) × List Char
  | 0, buf => ([], buf)
  | fuel + 1, buf =>
    match findBoundaryEnd buf with
    | none => ([], buf)
    | some e =>
      let (ss, rest) := drainSentences fuel (buf.drop e)
      (buf.take e :: ss, rest)

/-- One incoming delta: append it to the buffer, then drain all complete
sentences (`chat.rs` lines 376–379). -/
def segStep (st : List (List Char) × List Char) (delta : List Char) :
    List (List Char) × List Char :=
  let buf := st.2 ++ delta
  let (ss, rest) := drainSentences (buf.length + 1) buf
  (st.1 ++ ss, rest)

/-- The segmenter over a whole delta sequence: sentences emitted in order and
the final buffered tail.  Nothing is flushed at end-of-stream. -/
def segmentChars (deltas : List (List Char)) : List (List Char) × List Char :=
  deltas.foldl segStep ([], [])

/-- String-level wrapper of the segmenter. -/
def sentence_segmenter (deltas : List String) : List String × String :=
  let (ss, rest) := segmentChars (deltas.map String.data)
  (ss.map (fun cs => String.mk cs), String.mk rest)

/-! ## Whitespace-delimited words (Rust `str::split_whitespace`) -/

def splitWsAux : List Char → List Char → List (List Char)
  | [], acc => if acc = [] then [] else [acc.reverse]
  | c :: rest, acc =>
    if isWs c then
      if acc = [] then splitWsAux rest [] else acc.reverse :: splitWsAux rest []
    else splitWsAux rest (c :: acc)

/-- Rust `s.split_whitespace()`: maximal non-whitespace runs, no empties. -/
def splitWhitespace (s : String) : List String :=
  (splitWsAux s.data []).map (fun cs => String.mk cs)

/-- The join of the first three whitespace-delimited words of the user
message (`conversation.rs` lines 82–88). -/
def first_three_words (user_message : String) : String :=
  String.intercalate " " ((splitWhitespace user_message).take 3)

/-! ## Conversation store: `add_message` (`repositories/conversation.rs` 55–110)

The conversation is the ordered list of stored entries plus a title.  The
transaction-side write of `add_message` is: truncate with
`split_off(message_id)` when `message_id < len` (a negative `message_id` cast
to `usize` exceeds the length and makes `split_off` panic — modelled as
`none`), derive the title when `message_id == 0`, then push the user message
and the answer.  The byte length of the three-word join is compared with 30
(`first_three_words.len() > 30`), while the existing title is cut to 30
characters (`chars().take(30)`). -/

def add_message (conv : List String) (title : String)
    (user_message answer : String) (message_id : Int) :
    Option (List String × String) :=
  let truncated : Option (List String) :=
    if message_id < (conv.length : Int) then
      if 0 ≤ message_id then some (conv.take message_id.toNat)
      else none
    else some conv
  match truncated with
  | none => none
  | some entries =>
    let newTitle :=
      if message_id = 0 then
        let ftw := first_three_words user_message
        if 30 < utf8Len ftw then title.take 30 else ftw
      else title
    some (entries ++ [user_message, answer], newTitle)

/-! ## Credit gate (`chat.rs` lines 89, 106–131; `config/constant.rs`) -/

/-- The static price table `MODEL_TO_PRICE`. -/
def MODEL_TO_PRICE (model : String) : Option Int :=
  if model = "gpt-4o" then some 15
  else if model = "gpt-4o-2024-05-13" then some 15
  else if model = "gpt-4o-2024-08-06" then some 15
  else if model = "gpt-4o-mini" then some 1
  else none

inductive CreditCheck where
  | invalidModel : CreditCheck
  | insufficientCredit : CreditCheck
  | approved (credits_remaining : Int) : CreditCheck
deriving DecidableEq

/-- The credit gate of `handle_user_message`: an unknown model is a hard
rejection; `cost > credits_remaining` rejects; otherwise the turn proceeds
and `credits_remaining` is left exactly as read from the session —
the code performs no subtraction (`chat.rs` lines 106–121). -/
def credit_check (model : String) (balance : Int) : CreditCheck :=
  match MODEL_TO_PRICE model with
  | none => CreditCheck.invalidModel
  | some cost =>
    if cost > balance then CreditCheck.insufficientCredit
    else CreditCheck.approved balance

/-- Edit-target validation (`chat.rs` line 180): the request is rejected iff
`message_id >= (entries.len() / 2) as i64`.  There is no lower bound check. -/
def edit_target_accepted (message_id : Int) (entryCount : Nat) : Bool :=
  decide (message_id < ((entryCount / 2 : Nat) : Int))

/-! ## Stored-entry decoding (`chat.rs` lines 201–218, `entity/conversation.rs`)

Each stored entry is a JSON value decoded into `Message` with
`serde_json::from_value(e).unwrap()` — a decode failure panics.  A voice
entry contributes its transcription (`unwrap_or_default`). -/

inductive Role where
  | user : Role
  | assistant : Role
  | system : Role
deriving DecidableEq

inductive MessageType where
  | text : MessageType
  | voice : MessageType
deriving DecidableEq

structure Message where
  msgtype : MessageType
  id : Nat
  role : Role
  content : List Char
  transcription : Option (List Char)
  images : List (List Char)

def decodeRole (j : Json) : Option Role :=
  match j with
  | Json.str s =>
    if s = "user".data then some Role.user
    else if s = "assistant".data then some Role.assistant
    else if s = "system".data then some Role.system
    else none
  | _ => none

def decodeMessageType (j : Json) : Option MessageType :=
  match j with
  | Json.str s =>
    if s = "text".data then some MessageType.text
    else if s = "voice".data then some MessageType.voice
    else none
  | _ => none

def decodeStrList (j : Json) : Option (List (List Char)) :=
  match j with
  | Json.arr xs => xs.mapM (fun x => match x with
      | Json.str s => some s
      | _ => none)
  | _ => none

/-- serde deserialization of a stored `Message` entry: `type`, `id`, `role`,
`content` and `images` are required; `transcription` is optional. -/
def decodeMessage (j : Json) : Option Message :=
  match jsonField j "type".data with
  | none => none
  | some tj =>
    match decodeMessageType tj with
    | none => none
    | some t =>
      match decodeNatField j "id".data with
      | none => none
      | some i =>
        match jsonField j "role".data with
        | none => none
        | some rj =>
          match decodeRole rj with
          | none => none
          | some r =>
            match decodeStrField j "content".data with
            | none => none
            | some c =>
              match decodeOptStr j "transcription".data with
              | none => none
              | some tr =>
                match jsonField j "images".data with
                | none => none
                | some ij =>
                  match decodeStrList ij with
                  | none => none
                  | some im => some ⟨t, i, r, c, tr, im⟩

/-- Decoding of the stored entries into the provider context triples
(`chat.rs` lines 201–218).  The code calls `unwrap()` on every entry: one
undecodable entry panics the request handler, modelled as `none`. -/
def build_conversation_list :
    List Json → Option (List (List Char × Role × List (List Char)))
  | [] => some []
  | e :: rest =>
    match decodeMessage e with
    | none => none
    | some m =>
      match build_conversation_list rest with
      | none => none
      | some tail =>
        match m.msgtype with
        | MessageType.text => some ((m.content, m.role, m.images) :: tail)
        | MessageType.voice =>
          some ((m.transcription.getD [], m.role, m.images) :: tail)

/-! ## Streaming task and persistence (`chat.rs` lines 331–523)

The producer task communicates with the response through a bounded channel
(`mpsc::channel`).  A client disconnect drops the receiving end, after which
every `send` fails.  This is modelled by a send budget: the number of frames
the receiver will still accept.  `tx.send(...).await.is_err()` is `trySend`;
the error sends at lines 494, 512 and 519 ignore the result (`let _ =`). -/

inductive ChanMsg where
  | frame (s : String) : ChanMsg
  | err (s : String) : ChanMsg
deriving DecidableEq

structure TaskState where
  sent : List ChanMsg
  budget : Nat
deriving DecidableEq

def trySend (st : TaskState) (m : ChanMsg) : TaskState × Bool :=
  match st.budget with
  | 0 => (st, false)
  | b + 1 => (⟨st.sent ++ [m], b⟩, true)

/-- Failure injection for the fallible steps of the streaming task. -/
structure TurnEnv where
  saveOk : Bool
  addOk : Bool
  notifyOk : Bool
  commitOk : Bool
deriving DecidableEq

/-- Outcome of the spawned streaming task. -/
structure TaskResult where
  sent : List ChanMsg
  addMessageCalled : Bool
  notifierCalledWith : Option Int
  committed : Bool
  panicked : Bool
  store : List String × String
deriving DecidableEq

def notifyErrMsg : String := "Error sending updated session data"

def addErrMsg : String := "Failed to save message in database"

def commitErrMsg : String := "Committing the database transaction failed"

/-- The start index handed to `add_message` (`chat.rs` lines 483–487):
`conversation_list.len() - 1` for the append sentinel `-1` (which equals the
stored entry count, since the new user message was pushed onto the decoded
list), and `message_id * 2` otherwise. -/
def addStartIndex (message_id : Int) (entryCount : Nat) : Int :=
  if message_id = -1 then ((entryCount + 1 : Nat) : Int) - 1 else message_id * 2

/-- The post-stream persistence phase (`chat.rs` lines 444–522), in code
order: save the uploaded voice file (`save_file(...).unwrap()` — a failure
panics), write the turn with `add_message` inside the open transaction (a
failure sends a terminal error and returns, dropping — rolling back — the
transaction), call the billing notifier `send_session_data` with the
precomputed `credits_remaining` (same on failure), and finally commit.  The
store visible afterwards is the pending write only when the commit ran. -/
def persist_phase (env : TurnEnv) (isVoice : Bool) (conv : List String)
    (title user_message answer : String) (message_id : Int) (credits : Int)
    (st : TaskState) : TaskResult :=
  if isVoice && !env.saveOk then
    { sent := st.sent, addMessageCalled := false, notifierCalledWith := none,
      committed := false, panicked := true, store := (conv, title) }
  else
    match add_message conv title user_message answer
        (addStartIndex message_id conv.length) with
    | none =>
      { sent := st.sent, addMessageCalled := true, notifierCalledWith := none,
        committed := false, panicked := true, store := (conv, title) }
    | some pending =>
      if !env.addOk then
        let st1 := (trySend st (ChanMsg.err addErrMsg)).1
        { sent := st1.sent, addMessageCalled := true,
          notifierCalledWith := none, committed := false, panicked := false,
          store := (conv, title) }
      else if !env.notifyOk then
        let st1 := (trySend st (ChanMsg.err notifyErrMsg)).1
        { sent := st1.sent, addMessageCalled := true,
          notifierCalledWith := some credits, committed := false,
          panicked := false, store := (conv, title) }
      else if !env.commitOk then
        let st1 := (trySend st (ChanMsg.err commitErrMsg)).1
        { sent := st1.sent, addMessageCalled := true,
          notifierCalledWith := some credits, committed := false,
          panicked := false, store := (conv, title) }
      else
        { sent := st.sent, addMessageCalled := true,
          notifierCalledWith := some credits, committed := true,
          panicked := false, store := pending }

/-- The relay loop of a text turn (`chat.rs` lines 420–428): each delta is
sent as a data frame; a failed send makes the task `return Err(())`
immediately. -/
def stream_loop (st : TaskState) : List String → TaskState × Bool
  | [] => (st, true)
  | d :: rest =>
    let (st', ok) := trySend st (ChanMsg.frame d)
    if ok then stream_loop st' rest else (st', false)

/-- The whole spawned task for a text turn: relay every delta, then run the
persistence phase with the accumulated `total_content`.  When a send fails
(client disconnected) the task returns at once — the persistence step is
never attempted and the open transaction is dropped, rolling it back. -/
def streaming_task (env : TurnEnv) (sendBudget : Nat) (conv : List String)
    (title user_message : String) (message_id : Int) (credits : Int)
    (deltas : List String) : TaskResult :=
  match stream_loop ⟨[], sendBudget⟩ deltas with
  | (st, true) =>
    persist_phase env false conv title user_message
      (String.join deltas) message_id credits st
  | (st, false) =>
    { sent := st.sent, addMessageCalled := false, notifierCalledWith := none,
      committed := false, panicked := false, store := (conv, title) }

/-! ## Request lifecycle event order (`chat.rs` lines 73–522)

The statement order of `handle_user_message` on the happy path, as an event
trace: session check, message-type parse and credit gate; then
`state.db.begin()` (line 148), the conversation fetch (line 157) and the
edit-target validation (line 180); the provider request (line 311) and the
reads of its byte stream (line 335); then, inside the spawned task after the
stream ends, the re-fetch performed by `add_message` (conversation.rs line
63), the store write, the notifier call and the commit. -/

inductive TurnEvent where
  | sessionCheck : TurnEvent
  | parseMessageType : TurnEvent
  | creditCheck : TurnEvent
  | txnBegin : TurnEvent
  | fetchConversation : TurnEvent
  | validateEditTarget : TurnEvent
  | saveImages : TurnEvent
  | providerRequest : TurnEvent
  | streamRead (i : Nat) : TurnEvent
  | persistRefetch : TurnEvent
  | storeWrite : TurnEvent
  | notifierCall : TurnEvent
  | txnCommit : TurnEvent
deriving DecidableEq

/-- The event trace of a text turn whose provider stream delivers `n`
transport chunks. -/
def turn_events (n : Nat) : List TurnEvent :=
  [TurnEvent.sessionCheck, TurnEvent.parseMessageType, TurnEvent.creditCheck,
   TurnEvent.txnBegin, TurnEvent.fetchConversation,
   TurnEvent.validateEditTarget, TurnEvent.saveImages,
   TurnEvent.providerRequest]
    ++ (List.range n).map TurnEvent.streamRead
    ++ [TurnEvent.persistRefetch, TurnEvent.storeWrite,
        TurnEvent.notifierCall, TurnEvent.txnCommit]

/-! ## Speech relay (`chat.rs` lines 377–418)

For each sentence the loop creates a Deepgram client (a creation failure
skips the sentence before `is_started` is touched), chooses the container —
`Wav` when `is_started` is still false, the raw `"none"` container otherwise
— sets `is_started = true`, and only then opens the synthesis stream; a
synthesis failure skips the sentence.  Audio frames of successful calls are
forwarded in order. -/

inductive AudioContainer where
  | wav : AudioContainer
  | rawNone : AudioContainer
deriving DecidableEq

/-- The synthesis calls made for the sentences, with the container each one
used and whether it succeeded.  `clientOk i` injects the Deepgram client
creation outcome for sentence `i`, `synthOk i` the `speak_to_stream`
outcome. -/
def speech_relay_calls (clientOk synthOk : Nat → Bool) :
    List String → Nat → Bool → List (AudioContainer × Bool)
  | [], _, _ => []
  | _s :: rest, i, is_started =>
    if clientOk i then
      let container :=
        if is_started = false then AudioContainer.wav
        else AudioContainer.rawNone
      (container, synthOk i) :: speech_relay_calls clientOk synthOk rest (i + 1) true
    else speech_relay_calls clientOk synthOk rest (i + 1) is_started

/-- The containers of the calls whose audio was actually forwarded to the
client (only successful synthesis calls yield frames). -/
def forwardedContainers (calls : List (AudioContainer × Bool)) :
    List AudioContainer :=
  (calls.filter (fun c => c.2)).map Prod.fst

/-! ## Helper lemmas and claim theorems -/

theorem joinL_append (a b : List (List Char)) : joinL (a ++ b) = joinL a ++ joinL b := by
  induction a with
  | nil => simp [joinL]
  | cons x xs ih => simp [joinL, ih]

theorem findBoundaryEnd_pos : ∀ (cs : List Char) (e : Nat),
    findBoundaryEnd cs = some e → 1 ≤ e := by
  intro cs e h
  match cs with
  | [] => simp [findBoundaryEnd] at h
  | c :: rest =>
    simp only [findBoundaryEnd] at h
    split at h
    · injection h with h; omega
    · split at h
      · injection h with h; omega
      · split at h
        · injection h with h; omega
        · obtain ⟨e', _, rfl⟩ := Option.map_eq_some'.mp h
          omega

theorem drain_no_boundary : ∀ (fuel : Nat) (buf : List Char),
    buf.length < fuel → findBoundaryEnd (drainSentences fuel buf).2 = none := by
  intro fuel
  induction fuel with
  | zero => intro buf h; omega
  | succ n ih =>
    intro buf h
    match hb : findBoundaryEnd buf with
    | none => simp [drainSentences, hb]
    | some e =>
      have hpos := findBoundaryEnd_pos buf e hb
      have hne : buf ≠ [] := by
        intro hnil; rw [hnil] at hb; simp [findBoundaryEnd] at hb
      have hlen : 1 ≤ buf.length := by
        cases buf with
        | nil => exact absurd rfl hne
        | cons x xs => simp
      have hdrop : (buf.drop e).length < n := by
        rw [List.length_drop]; omega
      rcases h2 : drainSentences n (buf.drop e) with ⟨ss, tail⟩
      have := ih (buf.drop e) hdrop
      rw [h2] at this
      simp [drainSentences, hb, h2]
      simpa using this

theorem drain_join : ∀ (fuel : Nat) (buf : List Char),
    joinL (drainSentences fuel buf).1 ++ (drainSentences fuel buf).2 = buf := by
  intro fuel
  induction fuel with
  | zero => intro buf; simp [drainSentences, joinL]
  | succ n ih =>
    intro buf
    match hb : findBoundaryEnd buf with
    | none => simp [drainSentences, hb, joinL]
    | some e =>
      rcases h2 : drainSentences n (buf.drop e) with ⟨ss, tail⟩
      have := ih (buf.drop e)
      rw [h2] at this
      simp only at this
      simp only [drainSentences, hb, h2, joinL]
      rw [List.append_assoc, this, List.take_append_drop]

theorem seg_foldl_join : ∀ (ds : List (List Char)) (st : List (List Char) × List Char),
    joinL (ds.foldl segStep st).1 ++ (ds.foldl segStep st).2
      = joinL st.1 ++ (st.2 ++ joinL ds) := by
  intro ds
  induction ds with
  | nil => intro st; simp [joinL]
  | cons d rest ih =>
    intro st
    simp only [List.foldl_cons]
    rw [ih]
    rcases h2 : drainSentences ((st.2 ++ d).length + 1) (st.2 ++ d) with ⟨ss, tail⟩
    have hj := drain_join ((st.2 ++ d).length + 1) (st.2 ++ d)
    rw [h2] at hj
    simp only at hj
    simp only [segStep, h2, joinL, joinL_append]
    rw [List.append_assoc, ← List.append_assoc (joinL ss), hj]
    simp [joinL]

theorem seg_foldl_tail : ∀ (ds : List (List Char)) (st : List (List Char) × List Char),
    findBoundaryEnd st.2 = none → findBoundaryEnd (ds.foldl segStep st).2 = none := by
  intro ds
  induction ds with
  | nil => intro st h; simpa using h
  | cons d rest ih =>
    intro st _h
    simp only [List.foldl_cons]
    apply ih
    rcases h2 : drainSentences ((st.2 ++ d).length + 1) (st.2 ++ d) with ⟨ss, tail⟩
    have := drain_no_boundary ((st.2 ++ d).length + 1) (st.2 ++ d) (by omega)
    rw [h2] at this
    simp only [List.length_append] at h2
    simpa [segStep, h2] using this

theorem seg_foldl_mono : ∀ (ds : List (List Char)) (st : List (List Char) × List Char),
    ∃ ext, (ds.foldl segStep st).1 = st.1 ++ ext := by
  intro ds
  induction ds with
  | nil => intro st; exact ⟨[], by simp⟩
  | cons d rest ih =>
    intro st
    simp only [List.foldl_cons]
    obtain ⟨ext1, hext1⟩ := ih (segStep st d)
    rcases h2 : drainSentences ((st.2 ++ d).length + 1) (st.2 ++ d) with ⟨ss, tail⟩
    refine ⟨ss ++ ext1, ?_⟩
    rw [hext1]
    simp only [List.length_append] at h2
    simp [segStep, h2]

theorem stream_loop_ok : ∀ (ds : List String) (sent : List ChanMsg) (budget : Nat),
    ds.length ≤ budget →
    stream_loop ⟨sent, budget⟩ ds
      = (⟨sent ++ ds.map ChanMsg.frame, budget - ds.length⟩, true) := by
  intro ds
  induction ds with
  | nil => intro sent budget _h; simp [stream_loop]
  | cons d rest ih =>
    intro sent budget h
    match budget with
    | 0 => simp at h
    | b + 1 =>
      have hr : rest.length ≤ b := by
        simp at h; omega
      simp [stream_loop, trySend, ih (sent ++ [ChanMsg.frame d]) b hr]

theorem stream_loop_fail : ∀ (ds : List String) (sent : List ChanMsg) (budget : Nat),
    budget < ds.length →
    stream_loop ⟨sent, budget⟩ ds
      = (⟨sent ++ (ds.take budget).map ChanMsg.frame, 0⟩, false) := by
  intro ds
  induction ds with
  | nil => intro sent budget h; simp at h
  | cons d rest ih =>
    intro sent budget h
    match budget with
    | 0 => simp [stream_loop, trySend]
    | b + 1 =>
      have hr : b < rest.length := by
        simp at h; omega
      simp [stream_loop, trySend, ih (sent ++ [ChanMsg.frame d]) b hr]

theorem build_conversation_list_none : ∀ (entries : List Json) (e : Json),
    e ∈ entries → decodeMessage e = none →
    build_conversation_list entries = none := by
  intro entries
  induction entries with
  | nil => intro e he; simp at he
  | cons x xs ih =>
    intro e he hd
    rcases List.mem_cons.mp he with rfl | hxs
    · simp [build_conversation_list, hd]
    · have := ih e hxs hd
      cases hx : decodeMessage x <;> simp [build_conversation_list, hx, this]

theorem relay_all_raw (cOk sOk : Nat → Bool) (hc : ∀ j, cOk j = true) :
    ∀ (s : List String) (i : Nat),
    (speech_relay_calls cOk sOk s i true).map Prod.fst
      = List.replicate s.length AudioContainer.rawNone := by
  intro s
  induction s with
  | nil => intro i; simp [speech_relay_calls]
  | cons x rest ih =>
    intro i
    simp [speech_relay_calls, hc i, ih (i + 1), List.replicate_succ]

theorem relay_tail_raw (cOk sOk : Nat → Bool) :
    ∀ (s : List String) (i : Nat) (c : AudioContainer × Bool),
    c ∈ speech_relay_calls cOk sOk s i true → c.1 = AudioContainer.rawNone := by
  intro s
  induction s with
  | nil => intro i c hc; simp [speech_relay_calls] at hc
  | cons x rest ih =>
    intro i c hc
    by_cases h : cOk i = true
    · simp [speech_relay_calls, h] at hc
      rcases hc with rfl | hc
      · rfl
      · exact ih (i + 1) c hc
    · simp [speech_relay_calls, h] at hc
      exact ih (i + 1) c hc

/-- Claim C7: the sentence segmenter, fed any sequence of text deltas, emits
each prefix ending at a sentence boundary in left-to-right order, each
sentence only after the delta containing its boundary has arrived, removing
it from the buffer; the unterminated trailing tail is never emitted, even at
end-of-stream.  Conjuncts: the concrete example of the spec; no byte is lost
and sentences plus tail repartition the input in order; the final tail holds
no boundary (it is unterminated and stays buffered — `segmentChars` applies
no flush at end-of-stream); the emitted list only grows at the end as deltas
arrive, so a sentence appears only once the delta carrying its boundary has
been consumed. -/
theorem segmenter_streaming_behaviour :
    sentence_segmenter ["Hello wor", "ld. How are", " you?\n"]
      = (["Hello world. ", "How are you?\n"], "")
    ∧ (∀ ds : List (List Char),
        joinL (segmentChars ds).1 ++ (segmentChars ds).2 = joinL ds)
    ∧ (∀ ds : List (List Char), findBoundaryEnd (segmentChars ds).2 = none)
    ∧ (∀ ds es : List (List Char), ∃ ext,
        (segmentChars (ds ++ es)).1 = (segmentChars ds).1 ++ ext) := by
  refine ⟨by decide, ?_, ?_, ?_⟩
  · intro ds
    have := seg_foldl_join ds ([], [])
    simpa [segmentChars, joinL] using this
  · intro ds
    exact seg_foldl_tail ds ([], []) (by simp [findBoundaryEnd])
  · intro ds es
    rw [segmentChars, segmentChars, List.foldl_append]
    exact seg_foldl_mono es (List.foldl segStep ([], []) ds)

/-- Claim C3 (evaluation at the failing input): the adapter does NOT
reassemble a provider frame split across two transport chunks.  On
`["data: {\x22choices\x22:...", "}\n"]` it produces no delta at all — the
`cached_str` buffer is declared inside the per-chunk loop and dropped at the
chunk boundary, and the continuation chunk lacks the `data: ` tag — whereas
the same complete frame (with serde's required fields) in a single chunk
does produce `"Hi"`.  Third conjunct: even the fully reassembled body of the
spec's example fails serde deserialization, since `id`, `object`, `created`
and `model` are required fields of `ChatCompletionChunk`. -/
theorem adapter_drops_split_frame :
    adapterDeltas
        ["data: \x7b\"choices\":[\x7b\"delta\":\x7b\"content\":\"Hi\"\x7d\x7d]",
         "\x7d\n"] = []
    ∧ adapterDeltas
        ["data: \x7b\"id\":\"i\",\"object\":\"chat.completion.chunk\",\"created\":1,\"model\":\"gpt-4o\",\"choices\":[\x7b\"delta\":\x7b\"content\":\"Hi\"\x7d,\"index\":0\x7d]\x7d\n"]
        = ["Hi"]
    ∧ (parseChunk ("\x7b\"choices\":[\x7b\"delta\":\x7b\"content\":\"Hi\"\x7d\x7d]\x7d").data).isNone
        = true := by
  exact ⟨by decide, by decide, by decide⟩

/-- Claim C4 counterexample: the edit target `-2` (not the append sentinel
`-1`, and not in `0 ≤ n < m`) passes the pre-stream validation of
`chat.rs` line 180, which only checks `message_id >= len / 2`.  The claim
says every such target is rejected before any provider call. -/
theorem edit_target_negative_two_accepted :
    edit_target_accepted (-2) 4 = true
    ∧ ((-2 : Int) ≠ -1) ∧ ¬ (0 ≤ (-2 : Int)) := by decide

theorem add_message_fst (conv : List String) (title u a : String) (mid : Int)
    (hml : mid < (conv.length : Int)) (hm0 : 0 ≤ mid) :
    (add_message conv title u a mid).map Prod.fst
      = some (conv.take mid.toNat ++ [u, a]) := by
  simp only [add_message, if_pos hml, if_pos hm0]
  rfl

/-- Claim C4 (amended): for `0 ≤ n < m` on a conversation of `2m` entries the
store is truncated to exactly `2n` entries before the new user/assistant
pair is appended, and `n ≥ m` is rejected by the validation, which runs
before the provider request; but a negative target other than `-1` is NOT
rejected (see the counterexample). -/
theorem edit_truncation_amended (conv : List String) (title u a : String)
    (m n : Nat) (hlen : conv.length = 2 * m) :
    (n < m →
      (add_message conv title u a ((2 * n : Nat) : Int)).map Prod.fst
        = some (conv.take (2 * n) ++ [u, a])
      ∧ (conv.take (2 * n)).length = 2 * n)
    ∧ (m ≤ n → edit_target_accepted ((n : Nat) : Int) conv.length = false)
    ∧ List.Sublist [TurnEvent.validateEditTarget, TurnEvent.providerRequest]
        (turn_events 0) := by
  refine ⟨?_, ?_, by decide⟩
  · intro hn
    have h1 : ((2 * n : Nat) : Int) < (conv.length : Int) := by
      rw [hlen]; exact_mod_cast (by omega : 2 * n < 2 * m)
    have h2 : (0 : Int) ≤ ((2 * n : Nat) : Int) := by positivity
    constructor
    · have := add_message_fst conv title u a ((2 * n : Nat) : Int) h1 h2
      rwa [Int.toNat_natCast] at this
    · rw [List.length_take, hlen]; omega
  · intro hm
    simp only [edit_target_accepted, decide_eq_false_iff_not, not_lt, hlen]
    have : (2 * m) / 2 = m := by omega
    rw [this]
    exact_mod_cast hm

/-- Claim C8 counterexample: a first-turn user message whose three-word join
has at most 30 characters but more than 30 UTF-8 bytes.  The code compares
`first_three_words.len() > 30` — bytes, not characters — so it stores the
first 30 characters of the existing title instead of the join, contradicting
the claim's 30-character reading. -/
theorem title_cap_is_bytes_not_chars :
    (add_message [] "Old Title" "éééééé éééééé éééééé" "ans" 0).map Prod.snd
      = some "Old Title"
    ∧ (first_three_words "éééééé éééééé éééééé").length ≤ 30
    ∧ first_three_words "éééééé éééééé éééééé" ≠ "Old Title" := by
  refine ⟨by decide, by decide, by decide⟩

/-- Claim C8 (amended): on the conversation's first turn (edit boundary 0)
`add_message` stores the pair `[user, answer]` and derives the title as the
first three whitespace-delimited words of the user message; if that join
exceeds 30 BYTES (UTF-8), the title becomes the first 30 characters of the
conversation's existing title, never of the new message.  Second conjunct:
the spec's own example message. -/
theorem first_turn_title_amended (conv : List String) (t u a : String) :
    add_message conv t u a 0
      = some ([u, a],
          if 30 < utf8Len (first_three_words u) then t.take 30
          else first_three_words u)
    ∧ first_three_words "hello there world and more" = "hello there world" := by
  constructor
  · cases conv with
    | nil => simp [add_message]
    | cons c cs => simp [add_message]
  · decide

/-- Claim C1 (evaluation at the failing input): the credit gate approves
`gpt-4o` (price 15) at balance 20 — approval is indeed `price ≤ balance`,
and an unknown model or a short balance is rejected — but the
`credits_remaining` value carried to the billing notifier is the
UN-deducted balance 20, not `20 - 15 = 5`: `handle_user_message` never
subtracts the cost. -/
theorem credit_gate_notifies_undeducted_balance :
    credit_check "gpt-4o" 20 = CreditCheck.approved 20
    ∧ MODEL_TO_PRICE "gpt-4o" = some 15
    ∧ (streaming_task ⟨true, true, true, true⟩ 10 [] "New Chat" "hi" (-1) 20
        ["Hel", "lo"]).notifierCalledWith = some 20
    ∧ (20 : Int) - 15 = 5 ∧ ¬ ((20 : Int) - 15 = 20)
    ∧ credit_check "gpt-4o" 14 = CreditCheck.insufficientCredit
    ∧ credit_check "bad-model" 1000 = CreditCheck.invalidModel := by
  refine ⟨by decide, by decide, by decide, by decide, by decide, by decide, by decide⟩

/-- Claim C2: if the billing-notifier call fails after the provider stream
completed successfully (all deltas were relayed), the transaction is never
committed — the stored conversation is unchanged — and a terminal error
message is still delivered through the output channel after the data
frames. -/
theorem notifier_failure_rolls_back (env : TurnEnv) (budget : Nat)
    (conv : List String) (title u : String) (mid credits : Int)
    (deltas : List String)
    (hn : env.notifyOk = false) (ha : env.addOk = true)
    (hb : deltas.length < budget)
    (hv : (add_message conv title u (String.join deltas)
            (addStartIndex mid conv.length)).isSome = true) :
    (streaming_task env budget conv title u mid credits deltas).committed = false
    ∧ (streaming_task env budget conv title u mid credits deltas).store
        = (conv, title)
    ∧ (streaming_task env budget conv title u mid credits deltas).sent
        = deltas.map ChanMsg.frame ++ [ChanMsg.err notifyErrMsg] := by
  obtain ⟨pending, hp⟩ := Option.isSome_iff_exists.mp hv
  have hsl := stream_loop_ok deltas [] budget (le_of_lt hb)
  obtain ⟨k, hk⟩ : ∃ k, budget - deltas.length = k + 1 :=
    ⟨budget - deltas.length - 1, by omega⟩
  simp only [streaming_task, hsl, List.nil_append, hk]
  simp [persist_phase, hp, ha, hn, trySend]

/-- Witness for claim C2 at a concrete input. -/
theorem notifier_failure_rolls_back_witness :
    ((⟨true, true, false, true⟩ : TurnEnv).notifyOk = false)
    ∧ ((⟨true, true, false, true⟩ : TurnEnv).addOk = true)
    ∧ ([("a" : String)].length < 3)
    ∧ ((add_message [] "t" "u" (String.join ["a"])
          (addStartIndex (-1) ([] : List String).length)).isSome = true)
    ∧ (streaming_task ⟨true, true, false, true⟩ 3 [] "t" "u" (-1) 5 ["a"]).committed
        = false
    ∧ (streaming_task ⟨true, true, false, true⟩ 3 [] "t" "u" (-1) 5 ["a"]).store
        = ([], "t")
    ∧ (streaming_task ⟨true, true, false, true⟩ 3 [] "t" "u" (-1) 5 ["a"]).sent
        = [("a" : String)].map ChanMsg.frame ++ [ChanMsg.err notifyErrMsg] := by
  have h := notifier_failure_rolls_back ⟨true, true, false, true⟩ 3 [] "t" "u"
    (-1) 5 ["a"] rfl rfl (by decide) (by decide)
  exact ⟨rfl, rfl, by decide, by decide, h.1, h.2.1, h.2.2⟩

/-- Claim C6 counterexample: with a send budget of 1 (client gone after one
frame) and two deltas, the producer task aborts without calling
`add_message` — the persistence step the claim says is still attempted is
skipped entirely. -/
theorem disconnect_skips_persistence :
    (streaming_task ⟨true, true, true, true⟩ 1 ["q", "r"] "T" "u" (-1) 5
        ["a", "b"]).addMessageCalled = false
    ∧ (streaming_task ⟨true, true, true, true⟩ 1 ["q", "r"] "T" "u" (-1) 5
        ["a", "b"]).sent = [ChanMsg.frame "a"]
    ∧ (streaming_task ⟨true, true, true, true⟩ 1 ["q", "r"] "T" "u" (-1) 5
        ["a", "b"]).committed = false
    ∧ (streaming_task ⟨true, true, true, true⟩ 1 ["q", "r"] "T" "u" (-1) 5
        ["a", "b"]).store = (["q", "r"], "T") := by
  refine ⟨by decide, by decide, by decide, by decide⟩

/-- Claim C6 (amended): when the client disconnects mid-stream (the send
budget is exhausted before the deltas are) the producer task returns
immediately: the frames sent so far are all that was delivered, no terminal
error is queued, `add_message` is never called, the notifier is never
called, and the open transaction is dropped — the stored conversation is
unchanged.  Persistence is NOT attempted with the partial text. -/
theorem disconnect_aborts_without_persistence (env : TurnEnv) (budget : Nat)
    (conv : List String) (title u : String) (mid credits : Int)
    (deltas : List String) (h : budget < deltas.length) :
    streaming_task env budget conv title u mid credits deltas
      = { sent := (deltas.take budget).map ChanMsg.frame,
          addMessageCalled := false, notifierCalledWith := none,
          committed := false, panicked := false, store := (conv, title) } := by
  have hsl := stream_loop_fail deltas [] budget h
  simp only [streaming_task, hsl, List.nil_append]

/-- Witness for the amended claim C6 at a concrete input. -/
theorem disconnect_aborts_witness :
    (1 < [("a" : String), "b"].length)
    ∧ streaming_task ⟨true, true, true, true⟩ 1 [] "T" "u" (-1) 5 ["a", "b"]
        = { sent := [ChanMsg.frame "a"], addMessageCalled := false,
            notifierCalledWith := none, committed := false, panicked := false,
            store := ([], "T") } := by
  constructor
  · decide
  · have h := disconnect_aborts_without_persistence ⟨true, true, true, true⟩ 1
      [] "T" "u" (-1) 5 ["a", "b"] (by decide)
    simpa using h

/-- Claim C9 counterexample: a voice-file save failure inside the streaming
task panics (`save_file(...).unwrap()`, `chat.rs` line 463): the task ends
with no terminal error message on the channel, contradicting the claim that
every non-validation error is converted into rollback plus terminal
error. -/
theorem voice_save_failure_panics :
    (persist_phase ⟨false, true, true, true⟩ true ["q", "r"] "T" "u" "ans" (-1) 7
        ⟨[], 5⟩).panicked = true
    ∧ (persist_phase ⟨false, true, true, true⟩ true ["q", "r"] "T" "u" "ans" (-1) 7
        ⟨[], 5⟩).sent = [] := by
  refine ⟨by decide, by decide⟩

/-- Claim C9 (amended): errors of the store write, the notifier call and the
commit are handled locally — no commit, store unchanged, a terminal error
frame appended; but a voice-file save failure panics the task
(`unwrap`), and a stored-entry decode failure panics the handler
(`serde_json::from_value(e).unwrap()`, `chat.rs` line 208), modelled by
`build_conversation_list` returning `none`. -/
theorem task_error_handling_amended (env : TurnEnv) (isVoice : Bool)
    (conv : List String) (title u ans : String) (mid credits : Int)
    (sent0 : List ChanMsg) (b : Nat) :
    (isVoice = true → env.saveOk = false →
      (persist_phase env isVoice conv title u ans mid credits ⟨sent0, b⟩).panicked
          = true
      ∧ (persist_phase env isVoice conv title u ans mid credits ⟨sent0, b⟩).sent
          = sent0
      ∧ (persist_phase env isVoice conv title u ans mid credits ⟨sent0, b⟩).store
          = (conv, title))
    ∧ ((isVoice = false ∨ env.saveOk = true) →
       (add_message conv title u ans (addStartIndex mid conv.length)).isSome = true →
       (env.addOk = false →
         persist_phase env isVoice conv title u ans mid credits ⟨sent0, b + 1⟩
           = { sent := sent0 ++ [ChanMsg.err addErrMsg], addMessageCalled := true,
               notifierCalledWith := none, committed := false, panicked := false,
               store := (conv, title) })
       ∧ (env.addOk = true → env.notifyOk = false →
         persist_phase env isVoice conv title u ans mid credits ⟨sent0, b + 1⟩
           = { sent := sent0 ++ [ChanMsg.err notifyErrMsg],
               addMessageCalled := true, notifierCalledWith := some credits,
               committed := false, panicked := false, store := (conv, title) })
       ∧ (env.addOk = true → env.notifyOk = true → env.commitOk = false →
         persist_phase env isVoice conv title u ans mid credits ⟨sent0, b + 1⟩
           = { sent := sent0 ++ [ChanMsg.err commitErrMsg],
               addMessageCalled := true, notifierCalledWith := some credits,
               committed := false, panicked := false, store := (conv, title) }))
    ∧ (∀ (entries : List Json) (e : Json), e ∈ entries → decodeMessage e = none →
        build_conversation_list entries = none) := by
  refine ⟨?_, ?_, build_conversation_list_none⟩
  · intro hV hS
    simp [persist_phase, hV, hS]
  · intro hVS hsome
    obtain ⟨pending, hp⟩ := Option.isSome_iff_exists.mp hsome
    have hguard : (isVoice && !env.saveOk) = false := by
      rcases hVS with h | h <;> simp [h]
    refine ⟨?_, ?_, ?_⟩
    · intro hA
      simp [persist_phase, hguard, hp, hA, trySend]
    · intro hA hN
      simp [persist_phase, hguard, hp, hA, hN, trySend]
    · intro hA hN hC
      simp [persist_phase, hguard, hp, hA, hN, hC, trySend]

/-- Witness for the amended claim C9 at concrete inputs. -/
theorem task_error_handling_witness :
    ((persist_phase ⟨true, false, true, true⟩ false [] "t" "u" "a" (-1) 9
        ⟨[], 0 + 1⟩)
      = { sent := [] ++ [ChanMsg.err addErrMsg], addMessageCalled := true,
          notifierCalledWith := none, committed := false, panicked := false,
          store := ([], "t") })
    ∧ ((persist_phase ⟨false, true, true, true⟩ true [] "t" "u" "a" (-1) 9
        ⟨[], 4⟩).panicked = true) := by
  constructor
  · exact (task_error_handling_amended ⟨true, false, true, true⟩ false [] "t" "u"
      "a" (-1) 9 [] 0).2.1 (Or.inl rfl) (by decide) |>.1 rfl
  · exact ((task_error_handling_amended ⟨false, true, true, true⟩ true [] "t" "u"
      "a" (-1) 9 [] 4).1 rfl rfl).1

/-- Witness for the amended claim C4 at a concrete input. -/
theorem edit_truncation_witness :
    ([("a" : String), "b", "c", "d"].length = 2 * 2)
    ∧ (add_message ["a", "b", "c", "d"] "T" "u" "ans" ((2 * 1 : Nat) : Int)).map
        Prod.fst = some (["a", "b"] ++ ["u", "ans"])
    ∧ edit_target_accepted ((5 : Nat) : Int) [("a" : String), "b", "c", "d"].length
        = false := by
  have h := edit_truncation_amended ["a", "b", "c", "d"] "T" "u" "ans" 2 1
    (by decide)
  have h2 := edit_truncation_amended ["a", "b", "c", "d"] "T" "u" "ans" 2 5
    (by decide)
  refine ⟨by decide, ?_, h2.2.1 (by omega)⟩
  have h3 := (h.1 (by omega)).1
  simpa using h3

/-- Claim C5 counterexample: in the event order of `handle_user_message`,
`state.db.begin()` (line 148) precedes the first read of the provider
stream — the unique `txnBegin` event occurs before the unique
`streamRead 0` event, never after it, contradicting the claim that the
transaction is only opened after the stream is consumed. -/
theorem txn_begins_before_stream :
    List.Sublist [TurnEvent.txnBegin, TurnEvent.streamRead 0] (turn_events 1)
    ∧ ¬ List.Sublist [TurnEvent.streamRead 0, TurnEvent.txnBegin] (turn_events 1)
    ∧ (turn_events 1).count TurnEvent.txnBegin = 1
    ∧ (turn_events 1).count (TurnEvent.streamRead 0) = 1 := by
  refine ⟨by decide, by decide, by decide, by decide⟩

/-- Claim C5 (amended): the transaction is opened BEFORE the provider request
and is held across the whole stream; what happens after the stream
completes is the in-transaction re-fetch inside `add_message`, the store
write, the notifier call and the commit, in that order. -/
theorem txn_order_amended (n i : Nat) (h : i < n) :
    List.Sublist
      ([TurnEvent.txnBegin, TurnEvent.providerRequest]
        ++ [TurnEvent.streamRead i]
        ++ [TurnEvent.persistRefetch, TurnEvent.storeWrite,
            TurnEvent.notifierCall, TurnEvent.txnCommit])
      (turn_events n) := by
  unfold turn_events
  refine List.Sublist.append (List.Sublist.append ?_ ?_) (List.Sublist.refl _)
  · decide
  · exact List.singleton_sublist.mpr (List.mem_map.mpr ⟨i, List.mem_range.mpr h, rfl⟩)

/-- Witness for the amended claim C5 at a concrete input. -/
theorem txn_order_witness :
    (0 < 1)
    ∧ List.Sublist
      ([TurnEvent.txnBegin, TurnEvent.providerRequest]
        ++ [TurnEvent.streamRead 0]
        ++ [TurnEvent.persistRefetch, TurnEvent.storeWrite,
            TurnEvent.notifierCall, TurnEvent.txnCommit])
      (turn_events 1) :=
  ⟨by decide, txn_order_amended 1 0 (by decide)⟩

theorem forwardedContainers_cons_false (c : AudioContainer)
    (tail : List (AudioContainer × Bool)) :
    forwardedContainers ((c, false) :: tail) = forwardedContainers tail := by
  simp [forwardedContainers]

/-- Claim C10: `is_started` is set before the synthesis outcome is known, so
the containers of the synthesis calls in a voice turn are `Wav` for the
first sentence and the raw `"none"` container for every later sentence,
independently of which calls succeed; and if the first sentence's synthesis
fails (and is skipped), the audio actually forwarded to the client all
comes from `"none"`-container calls — it is never preceded by a WAV
header.  (Hypothesis: the Deepgram client creation, which precedes the flag
update, succeeds for every sentence.) -/
theorem voice_container_flag (cOk sOk : Nat → Bool) (s0 : String)
    (rest : List String) (hc : ∀ i, cOk i = true) :
    (speech_relay_calls cOk sOk (s0 :: rest) 0 false).map Prod.fst
      = AudioContainer.wav :: List.replicate rest.length AudioContainer.rawNone
    ∧ (sOk 0 = false →
        AudioContainer.wav ∉
          forwardedContainers (speech_relay_calls cOk sOk (s0 :: rest) 0 false)) := by
  have hhead : speech_relay_calls cOk sOk (s0 :: rest) 0 false
      = (AudioContainer.wav, sOk 0) :: speech_relay_calls cOk sOk rest 1 true := by
    simp [speech_relay_calls, hc 0]
  constructor
  · rw [hhead]
    simp [relay_all_raw cOk sOk hc rest 1]
  · intro hs0
    rw [hhead, hs0, forwardedContainers_cons_false]
    intro hmem
    simp only [forwardedContainers, List.mem_map, List.mem_filter] at hmem
    obtain ⟨c, ⟨hcm, _⟩, hcfst⟩ := hmem
    have hraw := relay_tail_raw cOk sOk rest 1 c hcm
    rw [hraw] at hcfst
    exact absurd hcfst (by decide)

/-- Witness for claim C10 at a concrete input. -/
theorem voice_container_witness :
    (speech_relay_calls (fun _ => true) (fun _ => false) ["Hi. ", "There.\n"] 0
        false).map Prod.fst
      = AudioContainer.wav :: List.replicate 1 AudioContainer.rawNone
    ∧ AudioContainer.wav ∉
        forwardedContainers
          (speech_relay_calls (fun _ => true) (fun _ => false)
            ["Hi. ", "There.\n"] 0 false) := by
  have h := voice_container_flag (fun _ => true) (fun _ => false) "Hi. "
    ["There.\n"] (fun i => rfl)
  exact ⟨h.1, h.2 rfl⟩
